import Mathlib

/-!
Verification development for the DevOpus generation pipeline
(src/app.py, src/agent/graph.py).

The pure data transformations of the pipeline are embedded here:
Python's json.loads is modelled by an executable JSON parser over
character lists, the markdown-fence stripping and regex brace salvage
of the coder paths are translated directly from the source, and the
streaming generators are modelled as functions from an oracle of
external call outcomes to the list of emitted stage events.
-/

/-! ## Python string helpers -/

/-- The left-brace character, written by code point. -/
def lbrace : Char := Char.ofNat 123

/-- The right-brace character, written by code point. -/
def rbrace : Char := Char.ofNat 125

/-- Whitespace characters stripped by Python's str.strip()
(space, tab, newline, carriage return, vertical tab, form feed). -/
def isPyWs (c : Char) : Bool :=
  decide (c = ' ' ∨ c = Char.ofNat 9 ∨ c = Char.ofNat 10 ∨ c = Char.ofNat 13 ∨
    c = Char.ofNat 11 ∨ c = Char.ofNat 12)

/-- Python str.strip(): remove leading and trailing whitespace. -/
def pyStrip (s : String) : String :=
  String.mk (((s.data.dropWhile isPyWs).reverse.dropWhile isPyWs).reverse)

/-- Python slicing s[:n]: the first n characters of s. -/
def pyTake (n : Nat) (s : String) : String :=
  String.mk (s.data.take n)

/-- Python str.lower (ASCII model; all denylist comparisons are ASCII). -/
def pyLower (s : String) : String :=
  String.mk (s.data.map Char.toLower)

/-- Strip a literal character sequence from the front of the input. -/
def stripPre : List Char → List Char → Option (List Char)
  | [], cs => some cs
  | _ :: _, [] => none
  | l :: ls, c :: cs => if l = c then stripPre ls cs else none

/-- Python str.startswith. -/
def pyStarts (s pre : String) : Bool :=
  (stripPre pre.data s.data).isSome

/-- Python str.split on a single newline separator (keeps empty parts;
the result is always non-empty). -/
def splitNlAux (acc : List Char) : List Char → List String
  | [] => [String.mk acc.reverse]
  | c :: cs =>
    if c = Char.ofNat 10 then String.mk acc.reverse :: splitNlAux [] cs
    else splitNlAux (c :: acc) cs

/-- Python str.split('\n'). -/
def splitNl (s : String) : List String :=
  splitNlAux [] s.data

/-- Python '\n'.join. -/
def joinNl : List String → String
  | [] => ("")
  | x :: xs => xs.foldl (fun acc y => acc ++ ("\n") ++ y) x

/-! ## JSON values, modelling the results of Python's json.loads.

Numeric literals are kept as their source lexeme (Python would convert
them to int/float; no claim depends on numeric arithmetic).  Objects are
association lists built with Python-dict insertion semantics: a repeated
key keeps its first position and takes the last value. -/

inductive Json where
  | null : Json
  | bool (b : Bool) : Json
  | num (lexeme : String) : Json
  | str (s : String) : Json
  | arr (elems : List Json) : Json
  | obj (entries : List (String × Json)) : Json

/-- Python dict insertion: overwrite in place when the key exists,
append otherwise. -/
def dictInsert (kvs : List (String × Json)) (k : String) (v : Json) :
    List (String × Json) :=
  if kvs.any (fun kv => decide (kv.1 = k)) then
    kvs.map (fun kv => if kv.1 = k then (k, v) else kv)
  else kvs ++ [(k, v)]

/-- Python dict lookup on a parsed object. -/
def jlookup (kvs : List (String × Json)) (k : String) : Option Json :=
  match kvs.find? (fun kv => decide (kv.1 = k)) with
  | some kv => some kv.2
  | none => none

/-! ## A model of Python's json.loads (strict mode defaults). -/

/-- JSON whitespace accepted between tokens. -/
def isJsonWs (c : Char) : Bool :=
  decide (c = ' ' ∨ c = Char.ofNat 9 ∨ c = Char.ofNat 10 ∨ c = Char.ofNat 13)

/-- Skip JSON whitespace. -/
def pskipWs : List Char → List Char
  | c :: cs => if isJsonWs c then pskipWs cs else c :: cs
  | [] => []

/-- Value of one hexadecimal digit. -/
def hexDigitVal (c : Char) : Option Nat :=
  if c.isDigit then some (c.toNat - 48)
  else if 'a' ≤ c ∧ c ≤ 'f' then some (c.toNat - 87)
  else if 'A' ≤ c ∧ c ≤ 'F' then some (c.toNat - 55)
  else none

/-- Parse the body of a JSON string literal (after the opening quote),
accumulating decoded characters.  Strict mode: raw control characters
are rejected; only the JSON escapes are accepted.  A \uXXXX escape is
decoded to the character of that code point (surrogate-pair combination
is not modelled; no claim exercises it). -/
def parseStrBody (fuel : Nat) (acc : List Char) (cs : List Char) :
    Option (String × List Char) :=
  match fuel with
  | 0 => none
  | fuel + 1 =>
    match cs with
    | [] => none
    | c :: rest =>
      if c = '\"' then some (String.mk acc.reverse, rest)
      else if c = '\\' then
        match rest with
        | [] => none
        | e :: rest2 =>
          if e = '\"' then parseStrBody fuel ('\"' :: acc) rest2
          else if e = '\\' then parseStrBody fuel ('\\' :: acc) rest2
          else if e = '/' then parseStrBody fuel ('/' :: acc) rest2
          else if e = 'b' then parseStrBody fuel (Char.ofNat 8 :: acc) rest2
          else if e = 'f' then parseStrBody fuel (Char.ofNat 12 :: acc) rest2
          else if e = 'n' then parseStrBody fuel (Char.ofNat 10 :: acc) rest2
          else if e = 'r' then parseStrBody fuel (Char.ofNat 13 :: acc) rest2
          else if e = 't' then parseStrBody fuel (Char.ofNat 9 :: acc) rest2
          else if e = 'u' then
            match rest2 with
            | h1 :: h2 :: h3 :: h4 :: rest3 =>
              match hexDigitVal h1, hexDigitVal h2, hexDigitVal h3, hexDigitVal h4 with
              | some v1, some v2, some v3, some v4 =>
                parseStrBody fuel
                  (Char.ofNat (((v1 * 16 + v2) * 16 + v3) * 16 + v4) :: acc) rest3
              | _, _, _, _ => none
            | _ => none
          else none
      else if c.toNat < 32 then none
      else parseStrBody fuel (c :: acc) rest

/-- Parse a JSON number lexeme: -? (0 | [1-9][0-9]*) frac? exp?. -/
def parseNum (cs : List Char) : Option (String × List Char) :=
  let (neg, cs1) : List Char × List Char :=
    match cs with
    | c :: rest => if c = '-' then (['-'], rest) else ([], cs)
    | [] => ([], [])
  match cs1 with
  | [] => none
  | c :: rest =>
    if ¬ c.isDigit then none
    else
      let (intPart, cs2) : List Char × List Char :=
        if c = '0' then (['0'], rest)
        else (c :: rest.takeWhile Char.isDigit, rest.dropWhile Char.isDigit)
      let (fracPart, cs3) : Option (List Char) × List Char :=
        match cs2 with
        | d :: rest2 =>
          if d = '.' then
            let ds := rest2.takeWhile Char.isDigit
            if ds = [] then (none, cs2) else (some ('.' :: ds), rest2.dropWhile Char.isDigit)
          else (some [], cs2)
        | [] => (some [], cs2)
      match fracPart with
      | none => none
      | some fracChars =>
        let (expPart, cs4) : Option (List Char) × List Char :=
          match cs3 with
          | e :: rest3 =>
            if e = 'e' ∨ e = 'E' then
              let (sgn, rest4) : List Char × List Char :=
                match rest3 with
                | s :: r => if s = '+' ∨ s = '-' then ([s], r) else ([], rest3)
                | [] => ([], [])
              let ds := rest4.takeWhile Char.isDigit
              if ds = [] then (none, cs3)
              else (some (e :: sgn ++ ds), rest4.dropWhile Char.isDigit)
            else (some [], cs3)
          | [] => (some [], cs3)
        match expPart with
        | none => none
        | some expChars =>
          some (String.mk (neg ++ intPart ++ fracChars ++ expChars), cs4)

mutual

/-- Parse one JSON value (fuel-based recursion; the fuel used by
jsonLoads always suffices because every recursive step consumes input). -/
def parseVal (fuel : Nat) (cs : List Char) : Option (Json × List Char) :=
  match fuel with
  | 0 => none
  | fuel + 1 =>
    let cs := pskipWs cs
    match stripPre ("true").data cs with
    | some rest => some (Json.bool true, rest)
    | none =>
    match stripPre ("false").data cs with
    | some rest => some (Json.bool false, rest)
    | none =>
    match stripPre ("null").data cs with
    | some rest => some (Json.null, rest)
    | none =>
    match stripPre ("NaN").data cs with
    | some rest => some (Json.num ("NaN"), rest)
    | none =>
    match stripPre ("Infinity").data cs with
    | some rest => some (Json.num ("Infinity"), rest)
    | none =>
    match stripPre ("-Infinity").data cs with
    | some rest => some (Json.num ("-Infinity"), rest)
    | none =>
    match cs with
    | [] => none
    | c :: rest =>
      if c = lbrace then parseObjItems fuel [] true rest
      else if c = '[' then parseArrItems fuel [] true rest
      else if c = '\"' then
        match parseStrBody (rest.length + 1) [] rest with
        | some (s, rest2) => some (Json.str s, rest2)
        | none => none
      else if c = '-' ∨ c.isDigit then
        match parseNum cs with
        | some (lex, rest2) => some (Json.num lex, rest2)
        | none => none
      else none

/-- Parse the members of a JSON object after the opening brace.
allowClose is true only when a closing brace may legally appear next
(i.e. at the start of the object, not after a comma). -/
def parseObjItems (fuel : Nat) (acc : List (String × Json)) (allowClose : Bool)
    (cs : List Char) : Option (Json × List Char) :=
  match fuel with
  | 0 => none
  | fuel + 1 =>
    let cs := pskipWs cs
    match cs with
    | [] => none
    | c :: rest =>
      if c = rbrace then
        if allowClose then some (Json.obj acc, rest) else none
      else if c = '\"' then
        match parseStrBody (rest.length + 1) [] rest with
        | none => none
        | some (k, cs2) =>
          match pskipWs cs2 with
          | ':' :: cs3 =>
            match parseVal fuel cs3 with
            | none => none
            | some (v, cs4) =>
              match pskipWs cs4 with
              | ',' :: cs5 => parseObjItems fuel (dictInsert acc k v) false cs5
              | d :: cs5 =>
                if d = rbrace then some (Json.obj (dictInsert acc k v), cs5) else none
              | [] => none
          | _ => none
      else none

/-- Parse the elements of a JSON array after the opening bracket. -/
def parseArrItems (fuel : Nat) (acc : List Json) (allowClose : Bool)
    (cs : List Char) : Option (Json × List Char) :=
  match fuel with
  | 0 => none
  | fuel + 1 =>
    let cs := pskipWs cs
    match cs with
    | [] => none
    | c :: _ =>
      if c = ']' then
        if allowClose then some (Json.arr acc.reverse, cs.tail) else none
      else
        match parseVal fuel cs with
        | none => none
        | some (v, cs2) =>
          match pskipWs cs2 with
          | ',' :: cs3 => parseArrItems fuel (v :: acc) false cs3
          | d :: cs3 => if d = ']' then some (Json.arr (v :: acc).reverse, cs3) else none
          | [] => none

end

/-- Model of Python json.loads: parse one value and require that only
whitespace remains.  Returns none where Python raises JSONDecodeError. -/
def jsonLoads (s : String) : Option Json :=
  match parseVal (s.data.length + 1) s.data with
  | some (v, rest) => if pskipWs rest = [] then some v else none
  | none => none

/-! ## Markdown-fence stripping and brace salvage.

Translated from the identical blocks in src/agent/graph.py (coder_agent)
and src/app.py (run_coder_agent, run_coder_followup): strip() the raw
text; if it starts with a fence, drop the first line and every line
whose strip() equals the fence delimiter, and rejoin with newlines. -/

/-- The three-backtick fence delimiter. -/
def fenceDelim : String := "```"

/-- Fence stripping used by the coder paths. -/
def stripFences (s : String) : String :=
  let cleaned := pyStrip s
  if pyStarts cleaned fenceDelim then
    joinNl (((splitNl cleaned).drop 1).filter (fun l => decide (¬ pyStrip l = fenceDelim)))
  else cleaned

/-- re.search of the pattern brace-anything-brace (greedy) on the cleaned
text: the match, when it exists, runs from the first left brace to the
last right brace at a later position. -/
def braceSpan (s : String) : Option String :=
  let cs := s.data
  match cs.findIdx? (fun c => decide (c = lbrace)) with
  | none => none
  | some i =>
    match cs.reverse.findIdx? (fun c => decide (c = rbrace)) with
    | none => none
    | some jr =>
      let j := cs.length - 1 - jr
      if i < j then some (String.mk ((cs.drop i).take (j - i + 1))) else none

/-- Outcome of the two-layer extraction at the Code stage: direct parse
of the fence-stripped text, then parse of the salvaged brace span.
The failing constructors record the cleaned text (used in the error
messages) and distinguish the branch taken. -/
inductive ExtractResult where
  | ok (v : Json)
  | salvageParseFailed (cleaned : String) (span : String)
  | noJsonObject (cleaned : String)

/-- The shared extraction logic of coder_agent / run_coder_agent /
run_coder_followup: json.loads on the fence-stripped text, else
json.loads on the brace-span match, else failure. -/
def coderExtractCore (responseText : String) : ExtractResult :=
  match jsonLoads (stripFences responseText) with
  | some v => ExtractResult.ok v
  | none =>
    match braceSpan (stripFences responseText) with
    | some sub =>
      match jsonLoads sub with
      | some v => ExtractResult.ok v
      | none => ExtractResult.salvageParseFailed (stripFences responseText) sub
    | none => ExtractResult.noJsonObject (stripFences responseText)

/-! ## FileSetNormalizer: removal of conflicting entry-point files. -/

/-- The denylist test from the coder paths: the lowercased path equals
one of the four alternate-extension entry-point names. -/
def isConflictingPath (path : String) : Bool :=
  let normalized := pyLower path
  decide (normalized = ("/app.js") ∨ normalized = ("/app.jsx") ∨
    normalized = ("app.js") ∨ normalized = ("app.jsx"))

/-- The normalization step: the loop collects every key whose lowercased
form is denylisted and deletes them, which on an association list is a
filter keeping the non-matching keys. -/
def removeConflictingFiles {α : Type} (files : List (String × α)) : List (String × α) :=
  files.filter (fun kv => ! isConflictingPath kv.1)

/-! ## The files step of the initial-generation coder paths. -/

/-- After extraction, run_coder_agent takes generated_data["files"] when
that key exists (else the whole object), iterates its keys and deletes
the denylisted ones.  A non-dict value makes the Python code raise
(`in` on a non-iterable or .keys() on a non-dict); the exact CPython
message is abstracted since no claim depends on it. -/
def appFilesStep (data : Json) : Except String (List (String × Json)) :=
  match data with
  | Json.obj kvs =>
    match (jlookup kvs ("files")).getD (Json.obj kvs) with
    | Json.obj fs => Except.ok (removeConflictingFiles fs)
    | _ => Except.error ("AttributeError: object has no attribute keys")
  | _ => Except.error ("TypeError: argument is not iterable")

/-- run_coder_agent (src/app.py): extraction followed by the files step.
Its two extraction-failure messages carry no preview of the text; the
JSONDecodeError rendering str(e) enters as the parameter decoderMsg. -/
def runCoderAgentFiles (decoderMsg : String) (responseText : String) :
    Except String (List (String × Json)) :=
  match coderExtractCore responseText with
  | ExtractResult.ok data => appFilesStep data
  | ExtractResult.salvageParseFailed _ _ =>
    Except.error (("Could not parse JSON: ") ++ decoderMsg)
  | ExtractResult.noJsonObject _ =>
    Except.error ("No JSON object found in coder response")

/-- coder_agent (src/agent/graph.py): same extraction and files step,
but both failure messages append a 500-character preview of the cleaned
text. -/
def coderAgentResult (decoderMsg : String) (responseText : String) :
    Except String (List (String × Json)) :=
  match coderExtractCore responseText with
  | ExtractResult.ok data => appFilesStep data
  | ExtractResult.salvageParseFailed cleaned _ =>
    Except.error (("Could not parse JSON: ") ++ decoderMsg ++
      ("\nResponse preview: ") ++ pyTake 500 cleaned)
  | ExtractResult.noJsonObject cleaned =>
    Except.error (("No JSON object found in coder response: ") ++ pyTake 500 cleaned)

/-! ## The follow-up pipeline (run_coder_followup, src/app.py). -/

/-- Python dict.get(key, default) over the request's current_files. -/
def pyGet (files : List (String × String)) (key dflt : String) : String :=
  match files.find? (fun kv => decide (kv.1 = key)) with
  | some kv => kv.2
  | none => dflt

/-- The files/summary normalization of run_coder_followup: no conflict
removal is performed on this path.  generated_data["files"] (or the
whole object) is returned as-is together with the summary, which
defaults when absent.  A non-dict parse makes the Python code raise on
generated_data.get; the message is abstracted. -/
def followupFilesSummary (data : Json) : Except String (Json × Json) :=
  match data with
  | Json.obj kvs =>
    Except.ok ((jlookup kvs ("files")).getD (Json.obj kvs),
      (jlookup kvs ("summary")).getD (Json.str ("Modifications applied successfully.")))
  | _ => Except.error ("AttributeError: object has no attribute get")

/-- Extraction in run_coder_followup: identical stripping, salvage and
error messages to run_coder_agent, then the files/summary step. -/
def followupExtract (decoderMsg : String) (responseText : String) :
    Except String (Json × Json) :=
  match coderExtractCore responseText with
  | ExtractResult.ok data => followupFilesSummary data
  | ExtractResult.salvageParseFailed _ _ =>
    Except.error (("Could not parse JSON: ") ++ decoderMsg)
  | ExtractResult.noJsonObject _ =>
    Except.error ("No JSON object found in coder response")

/-- Outcome of one external call: the underlying client either raises
(with the exception's string rendering) or returns a value. -/
inductive CallResult (α : Type) where
  | raises (msg : String)
  | returns (a : α)

/-- Observable outcome of run_coder_followup, separating the
precondition failure (raised before coder_llm is invoked) from
everything that happens at or after the model call. -/
inductive FollowupOutcome where
  | precondError (msg : String)
  | modelRaised (msg : String)
  | extracted (r : Except String (Json × Json))

/-- run_coder_followup: current_code is
current_files.get("/App.tsx", current_files.get("App.tsx", "")); a falsy
(empty) result raises before the model is invoked; otherwise the model
is called and its response goes through followupExtract. -/
def runCoderFollowupO (currentFiles : List (String × String))
    (modelCall : CallResult String) (decoderMsg : String) : FollowupOutcome :=
  let currentCode := pyGet currentFiles ("/App.tsx") (pyGet currentFiles ("App.tsx") (""))
  if currentCode = "" then
    FollowupOutcome.precondError ("No App.tsx found in current files")
  else
    match modelCall with
    | CallResult.raises m => FollowupOutcome.modelRaised m
    | CallResult.returns t => FollowupOutcome.extracted (followupExtract decoderMsg t)

/-! ## The Review stage's parse (src/app.py, generate_stream). -/

/-- The review path's own fence stripping: drop the first line, and the
last line only when it strips to the fence delimiter.  (Unlike the coder
paths it does not drop interior fence lines.) -/
def reviewStrip (s : String) : String :=
  let cleaned := pyStrip s
  if pyStarts cleaned fenceDelim then
    let lines := splitNl cleaned
    joinNl (if pyStrip ((lines.getLast?).getD ("")) = fenceDelim
      then (lines.drop 1).dropLast else lines.drop 1)
  else cleaned

/-- The review feedback computation: json.loads on the stripped text;
on JSONDecodeError the raw reviewer text is used verbatim; on a
successful parse, review_data.get("review_feedback", review_text) —
which raises when the parsed value is not a dict (only JSONDecodeError
is caught there). -/
def reviewFeedbackResult (reviewText : String) : Except String Json :=
  match jsonLoads (reviewStrip reviewText) with
  | none => Except.ok (Json.str reviewText)
  | some (Json.obj kvs) =>
    Except.ok ((jlookup kvs ("review_feedback")).getD (Json.str reviewText))
  | some _ => Except.error ("AttributeError: object has no attribute get")

/-! ## Stream models.

generate_stream and followup_stream are async generators whose entire
bodies sit in a try/except that turns any uncaught exception into a
terminal error event.  They are modelled as functions from an oracle of
external outcomes (each blocking call either raises, carrying str(e),
or returns) to the list of emitted stage events.  Payloads other than
error messages do not influence control flow (the payload formatters
catch their own exceptions), so events are modelled by their stage tag,
with the message kept on the error and save_error tags. -/

inductive Stage where
  | planning
  | plan_complete
  | architecting
  | architect_complete
  | coding
  | coding_complete
  | reviewing
  | complete
  | saved
  | save_error (msg : String)
  | error (msg : String)
  | modifying
deriving DecidableEq

/-- External-call outcomes for one initial-generation run.  planCall and
archCall model with_structured_output, which can also return None;
coderCall and reviewCall return the raw response text; decoderMsg is the
str(e) rendering of a JSONDecodeError should the salvage parse fail. -/
structure RunOracle where
  multimodalCall : CallResult Unit
  planCall : CallResult (Option Unit)
  archCall : CallResult (Option Unit)
  coderCall : CallResult String
  decoderMsg : String
  reviewCall : CallResult String
  hasUserId : Bool
  dbConfigured : Bool
  givenProjectId : Bool
  createCall : CallResult (Option Unit)
  updateCall : CallResult Unit
  versionCall : CallResult Unit

/-- An inner try/except that only prints the exception: either outcome
contributes no event. -/
def caughtLogged (c : CallResult Unit) : List Stage :=
  match c with
  | CallResult.raises _ => []
  | CallResult.returns _ => []

/-- The save section of generate_stream: entered when a user id is
present and the database is configured.  A missing project id triggers
create_project; an exception escaping to the outer handler of the save
section yields save_error; a falsy created id skips saving silently;
otherwise the snapshot update and version save are each individually
caught (logged only) and saved is emitted. -/
def saveStages (o : RunOracle) : List Stage :=
  if o.hasUserId && o.dbConfigured then
    match (if o.givenProjectId then CallResult.returns (some ()) else o.createCall) with
    | CallResult.raises m => [Stage.save_error m]
    | CallResult.returns none => []
    | CallResult.returns (some _) =>
      caughtLogged o.updateCall ++ caughtLogged o.versionCall ++ [Stage.saved]
  else []

/-- The stage events emitted by generate_stream, in order. -/
def generateStreamStages (o : RunOracle) : List Stage :=
  match o.multimodalCall with
  | CallResult.raises m => [Stage.error m]
  | CallResult.returns _ =>
    Stage.planning ::
    match o.planCall with
    | CallResult.raises m => [Stage.error m]
    | CallResult.returns none => [Stage.error ("Planner failed to create a plan")]
    | CallResult.returns (some _) =>
      Stage.plan_complete ::
      Stage.architecting ::
      match o.archCall with
      | CallResult.raises m => [Stage.error m]
      | CallResult.returns none =>
        [Stage.error ("Architect failed to create implementation steps")]
      | CallResult.returns (some _) =>
        Stage.architect_complete ::
        Stage.coding ::
        match o.coderCall with
        | CallResult.raises m => [Stage.error m]
        | CallResult.returns t =>
          match runCoderAgentFiles o.decoderMsg t with
          | Except.error m => [Stage.error m]
          | Except.ok _ =>
            Stage.coding_complete ::
            Stage.reviewing ::
            match o.reviewCall with
            | CallResult.raises m => [Stage.error m]
            | CallResult.returns rt =>
              match reviewFeedbackResult rt with
              | Except.error m => [Stage.error m]
              | Except.ok _ => Stage.complete :: saveStages o

/-- The full stage sequence of a successful initial-generation run,
before any optional persistence event. -/
def successStages : List Stage :=
  [Stage.planning, Stage.plan_complete, Stage.architecting, Stage.architect_complete,
   Stage.coding, Stage.coding_complete, Stage.reviewing, Stage.complete]

/-- External-call outcomes for one follow-up run.  updateCall covers the
fetch-and-update block guarded by the except-that-prints, versionCall
the version-save block guarded likewise. -/
structure FollowupOracle where
  currentFiles : List (String × String)
  coderCall : CallResult String
  decoderMsg : String
  hasUserId : Bool
  hasProjectId : Bool
  dbConfigured : Bool
  updateCall : CallResult Unit
  versionCall : CallResult Unit

/-- The save section of followup_stream: both persistence blocks are
individually caught and only printed, then saved is emitted
unconditionally — this path has no save_error event at all. -/
def followupSaveStages (fo : FollowupOracle) : List Stage :=
  if fo.hasUserId && fo.hasProjectId && fo.dbConfigured then
    caughtLogged fo.updateCall ++ caughtLogged fo.versionCall ++ [Stage.saved]
  else []

/-- The stage events emitted by followup_stream, in order. -/
def followupStreamStages (fo : FollowupOracle) : List Stage :=
  Stage.modifying ::
  match runCoderFollowupO fo.currentFiles fo.coderCall fo.decoderMsg with
  | FollowupOutcome.precondError m => [Stage.error m]
  | FollowupOutcome.modelRaised m => [Stage.error m]
  | FollowupOutcome.extracted (Except.error m) => [Stage.error m]
  | FollowupOutcome.extracted (Except.ok _) =>
    Stage.complete :: followupSaveStages fo

/-! ## Claim-side definitions (worded from the specification). -/

/-- Modelled from the spec: stripping a single leading path separator. -/
def stripLeadingSep (s : String) : String :=
  match s.data with
  | c :: rest => if c = '/' then String.mk rest else s
  | [] => s

/-- Modelled from the spec: a key matches the denylist when, lowercased
and with one leading separator stripped, it equals an alternate
entry-point name (app.js, app.jsx). -/
def claimDenylisted (k : String) : Bool :=
  let stripped := stripLeadingSep (pyLower k)
  decide (stripped = ("app.js") ∨ stripped = ("app.jsx"))

/-- One string occurs inside another. -/
def containsStr (hay needle : String) : Prop :=
  ∃ a b, hay = a ++ (needle ++ b)

/-! ## Helper lemmas -/

/-- An inner except-that-prints contributes no event, whatever happens. -/
theorem caughtLogged_nil (c : CallResult Unit) : caughtLogged c = [] := by
  cases c <;> rfl

/-- The spec's wording of the denylist test (lowercase, strip one leading
separator, compare with app.js / app.jsx) agrees with the code's test
(lowercase, compare with the four-name list) on every string. -/
theorem claim_denylist_agrees (k : String) :
    claimDenylisted k = isConflictingPath k := by
  rw [Bool.eq_iff_iff]
  unfold claimDenylisted isConflictingPath
  simp only [decide_eq_true_eq]
  generalize pyLower k = l
  obtain ⟨data⟩ := l
  cases data with
  | nil => decide
  | cons c rest =>
    by_cases hc : c = '/'
    · subst hc
      constructor
      · intro h
        rcases h with h | h
        · have h1 : String.mk rest = ("app.js" : String) := by
            simpa [stripLeadingSep] using h
          exact Or.inl (congrArg (fun t : String => String.mk ('/' :: t.data)) h1)
        · have h1 : String.mk rest = ("app.jsx" : String) := by
            simpa [stripLeadingSep] using h
          exact Or.inr (Or.inl (congrArg (fun t : String => String.mk ('/' :: t.data)) h1))
      · intro h
        rcases h with h | h | h | h
        · have ht : rest = ("app.js" : String).data :=
            congrArg (fun t : String => t.data.tail) h
          subst ht
          decide
        · have ht : rest = ("app.jsx" : String).data :=
            congrArg (fun t : String => t.data.tail) h
          subst ht
          decide
        · exact absurd
            (show (some '/' : Option Char) = some 'a' from
              congrArg (fun t : String => t.data.head?) h) (by decide)
        · exact absurd
            (show (some '/' : Option Char) = some 'a' from
              congrArg (fun t : String => t.data.head?) h) (by decide)
    · constructor
      · intro h
        rcases h with h | h
        · refine Or.inr (Or.inr (Or.inl ?_))
          simpa [stripLeadingSep, hc] using h
        · refine Or.inr (Or.inr (Or.inr ?_))
          simpa [stripLeadingSep, hc] using h
      · intro h
        rcases h with h | h | h | h
        · exact absurd (Option.some.inj
            (show some c = some '/' from congrArg (fun t : String => t.data.head?) h)) hc
        · exact absurd (Option.some.inj
            (show some c = some '/' from congrArg (fun t : String => t.data.head?) h)) hc
        · exact Or.inl (by simpa [stripLeadingSep, hc] using h)
        · exact Or.inr (by simpa [stripLeadingSep, hc] using h)

/-- Everything appFilesStep returns has passed the conflict filter. -/
theorem appFilesStep_normalized (data : Json) (fs : List (String × Json))
    (h : appFilesStep data = Except.ok fs) :
    ∀ kv ∈ fs, isConflictingPath kv.1 = false := by
  intro kv hkv
  unfold appFilesStep at h
  split at h
  · split at h
    · injection h with h
      subst h
      have hp := (List.mem_filter.mp hkv).2
      simpa using hp
    · exact Except.noConfusion h
  · exact Except.noConfusion h

/-! ## Claim theorems -/

/-- C3: the file-set normalization step is idempotent: for every
path-to-content mapping x, normalize (normalize x) = normalize x. -/
theorem c3_normalizer_idempotent (x : List (String × String)) :
    removeConflictingFiles (removeConflictingFiles x) = removeConflictingFiles x := by
  unfold removeConflictingFiles
  rw [List.filter_filter]
  apply List.filter_congr
  intro a _
  cases isConflictingPath a.1 <;> rfl

/-- C4: after normalization no remaining key, lowercased and with one
leading separator stripped, matches app.js or app.jsx; and every
/App.tsx entry of the input survives, even alongside denylisted keys. -/
theorem c4_normalized_fileset (files : List (String × String)) :
    (∀ kv ∈ removeConflictingFiles files, claimDenylisted kv.1 = false) ∧
    (∀ v : String, (("/App.tsx"), v) ∈ files →
      (("/App.tsx"), v) ∈ removeConflictingFiles files) := by
  constructor
  · intro kv hkv
    rw [claim_denylist_agrees]
    have hp := (List.mem_filter.mp hkv).2
    simpa using hp
  · intro v hv
    refine List.mem_filter.mpr ⟨hv, ?_⟩
    show (! isConflictingPath ("/App.tsx")) = true
    decide

/-- C4 witness at a concrete file set with a denylisted sibling. -/
theorem c4_normalized_fileset_witness :
    (("/App.tsx"), ("code")) ∈
      removeConflictingFiles [(("/app.js"), ("x")), (("/App.tsx"), ("code"))] ∧
    claimDenylisted ("/App.tsx") = false := by
  have h2 := (c4_normalized_fileset [(("/app.js"), ("x")), (("/App.tsx"), ("code"))]).2
    ("code") (List.Mem.tail _ (List.Mem.head _))
  exact ⟨h2, (c4_normalized_fileset [(("/app.js"), ("x")), (("/App.tsx"), ("code"))]).1
    (("/App.tsx"), ("code")) h2⟩

/-- C2 counterexample: the input "123" contains no brace-delimited
object, yet the extraction succeeds (Python returns the integer) instead
of raising the extraction error. -/
theorem c2_extraction_counterexample :
    braceSpan (stripFences ("123")) = none ∧
    coderExtractCore ("123") = ExtractResult.ok (Json.num ("123")) :=
  ⟨rfl, rfl⟩

/-- C2 (amended): the two positive vectors hold as stated; the failure
vector holds for inputs that additionally fail the direct parse:
whenever the fence-stripped text is not itself valid JSON and contains
no brace-delimited span, the extraction fails with the extraction error
(inputs that parse directly, such as "123", return that value even
without braces). -/
theorem c2_amended_extraction :
    coderExtractCore ("```json\n\x7b\"a\":1\x7d\n```") =
      ExtractResult.ok (Json.obj [(("a"), Json.num ("1"))]) ∧
    coderExtractCore ("here you go \x7b\"a\":1\x7d thanks") =
      ExtractResult.ok (Json.obj [(("a"), Json.num ("1"))]) ∧
    (∀ s : String, jsonLoads (stripFences s) = none →
      braceSpan (stripFences s) = none →
      coderExtractCore s = ExtractResult.noJsonObject (stripFences s)) := by
  refine ⟨rfl, rfl, ?_⟩
  intro s h1 h2
  unfold coderExtractCore
  rw [h1, h2]

/-- C2 witness: the failure vector of the amended claim at a concrete
input with no braces and no JSON value. -/
theorem c2_amended_extraction_witness :
    coderExtractCore ("absolutely not json") =
      ExtractResult.noJsonObject (stripFences ("absolutely not json")) :=
  c2_amended_extraction.2.2 ("absolutely not json") rfl rfl

/-- C1 counterexample: a follow-up run whose model response contains the
denylisted key /App.jsx hands that key back to the caller unfiltered —
run_coder_followup performs no normalization. -/
theorem c1_followup_counterexample :
    runCoderFollowupO [(("/App.tsx"), ("old"))]
      (CallResult.returns ("\x7b\"files\": \x7b\"/App.jsx\": \"alt\", \"/App.tsx\": \"code\"\x7d\x7d"))
      ("") =
      FollowupOutcome.extracted (Except.ok
        (Json.obj [(("/App.jsx"), Json.str ("alt")), (("/App.tsx"), Json.str ("code"))],
         Json.str ("Modifications applied successfully."))) ∧
    isConflictingPath ("/App.jsx") = true :=
  ⟨rfl, rfl⟩

/-- C1 (amended): the initial-generation paths run_coder_agent and
coder_agent always normalize: no key of a successfully returned file set
matches the denylist.  The follow-up path returns the extracted file set
without normalization (see the counterexample), so the invariant holds
for initial runs only. -/
theorem c1_amended_initial_paths_normalized :
    (∀ (d t : String) (fs : List (String × Json)),
      runCoderAgentFiles d t = Except.ok fs →
      ∀ kv ∈ fs, isConflictingPath kv.1 = false) ∧
    (∀ (d t : String) (fs : List (String × Json)),
      coderAgentResult d t = Except.ok fs →
      ∀ kv ∈ fs, isConflictingPath kv.1 = false) := by
  constructor
  · intro d t fs h
    unfold runCoderAgentFiles at h
    revert h
    cases coderExtractCore t <;> intro h <;> try exact Except.noConfusion h
    case ok data => exact appFilesStep_normalized data fs h
  · intro d t fs h
    unfold coderAgentResult at h
    revert h
    cases coderExtractCore t <;> intro h <;> try exact Except.noConfusion h
    case ok data => exact appFilesStep_normalized data fs h

/-- C1 witness: the amended claim applied to a concrete successful
initial-generation extraction. -/
theorem c1_amended_witness :
    isConflictingPath ("/App.tsx") = false :=
  c1_amended_initial_paths_normalized.1 ("")
    ("\x7b\"files\": \x7b\"/App.tsx\": \"x\"\x7d\x7d")
    [(("/App.tsx"), Json.str ("x"))] rfl
    ((("/App.tsx"), Json.str ("x"))) (List.Mem.head _)

/-- C6: a follow-up whose current_files has no usable entry point (every
binding of /App.tsx or App.tsx, if any, is empty) fails its precondition
before the model call: the outcome is the precondition error whatever
the model call would have produced. -/
theorem c6_followup_precondition (files : List (String × String))
    (mc : CallResult String) (d : String)
    (h1 : ∀ kv ∈ files, kv.1 = ("/App.tsx") → kv.2 = (""))
    (h2 : ∀ kv ∈ files, kv.1 = ("App.tsx") → kv.2 = ("")) :
    runCoderFollowupO files mc d =
      FollowupOutcome.precondError ("No App.tsx found in current files") := by
  have hcode : pyGet files ("/App.tsx") (pyGet files ("App.tsx") ("")) = "" := by
    unfold pyGet
    cases hf : files.find? (fun kv => decide (kv.1 = ("/App.tsx"))) with
    | some kv =>
      have hm := List.mem_of_find?_eq_some hf
      have hp := List.find?_some hf
      simp only [decide_eq_true_eq] at hp
      exact h1 kv hm hp
    | none =>
      cases hg : files.find? (fun kv => decide (kv.1 = ("App.tsx"))) with
      | some kv =>
        have hm := List.mem_of_find?_eq_some hg
        have hp := List.find?_some hg
        simp only [decide_eq_true_eq] at hp
        exact h2 kv hm hp
      | none => rfl
  simp only [runCoderFollowupO]
  rw [hcode]
  rfl

/-- C6 witness: a concrete current_files with no entry point at all. -/
theorem c6_followup_precondition_witness :
    runCoderFollowupO [(("/index.html"), ("page"))] (CallResult.returns ("ignored")) ("") =
      FollowupOutcome.precondError ("No App.tsx found in current files") :=
  c6_followup_precondition [(("/index.html"), ("page"))] (CallResult.returns ("ignored")) ("")
    (by intro kv hkv hk; simp at hkv; subst hkv; exact absurd hk (by decide))
    (by intro kv hkv hk; simp at hkv; subst hkv; exact absurd hk (by decide))

/-- C10: an entry-point key that is present but maps to the empty string
is treated as absent: when the lookup chain finds /App.tsx bound to ""
(or finds no /App.tsx and App.tsx bound to ""), the precondition fails
before the model call, although the key exists in the mapping. -/
theorem c10_empty_entry_treated_as_missing (files : List (String × String))
    (mc : CallResult String) (d : String)
    (h : files.find? (fun kv => decide (kv.1 = ("/App.tsx"))) =
          some ((("/App.tsx"), (""))) ∨
      (files.find? (fun kv => decide (kv.1 = ("/App.tsx"))) = none ∧
       files.find? (fun kv => decide (kv.1 = ("App.tsx"))) =
          some ((("App.tsx"), (""))))) :
    runCoderFollowupO files mc d =
      FollowupOutcome.precondError ("No App.tsx found in current files") := by
  have hcode : pyGet files ("/App.tsx") (pyGet files ("App.tsx") ("")) = "" := by
    unfold pyGet
    rcases h with h | ⟨ha, hb⟩
    · rw [h]
    · rw [ha, hb]
  simp only [runCoderFollowupO]
  rw [hcode]
  rfl

/-- C10 witness: the key /App.tsx is present, bound to the empty string,
and the follow-up still raises its precondition error. -/
theorem c10_empty_entry_witness :
    runCoderFollowupO [(("/App.tsx"), (""))] (CallResult.returns ("ignored")) ("") =
      FollowupOutcome.precondError ("No App.tsx found in current files") :=
  c10_empty_entry_treated_as_missing [(("/App.tsx"), (""))]
    (CallResult.returns ("ignored")) ("") (Or.inl rfl)

/-- C7 counterexample: on a concrete unsalvageable coder output, the
streaming path's extraction error is the fixed message without any
preview of the offending text (the message is even shorter than the
preview it would have to contain), and the stream's terminal error event
carries that same preview-free message. -/
theorem c7_streaming_no_preview_counterexample :
    runCoderAgentFiles ("")
      ("the coder replied with plain prose and gave back nothing usable") =
      Except.error ("No JSON object found in coder response") ∧
    ¬ containsStr ("No JSON object found in coder response")
      (pyTake 500 (stripFences
        ("the coder replied with plain prose and gave back nothing usable"))) ∧
    generateStreamStages
      ⟨CallResult.returns (), CallResult.returns (some ()), CallResult.returns (some ()),
       CallResult.returns ("the coder replied with plain prose and gave back nothing usable"),
       (""), CallResult.returns (""), false, false, false,
       CallResult.returns none, CallResult.returns (), CallResult.returns ()⟩ =
      [Stage.planning, Stage.plan_complete, Stage.architecting, Stage.architect_complete,
       Stage.coding, Stage.error ("No JSON object found in coder response")] := by
  refine ⟨rfl, ?_, rfl⟩
  rintro ⟨a, b, hab⟩
  have hl := congrArg String.length hab
  rw [String.length_append, String.length_append] at hl
  have h1 : (("No JSON object found in coder response") : String).length = 38 := rfl
  have h2 : (pyTake 500 (stripFences
    ("the coder replied with plain prose and gave back nothing usable"))).length = 63 := rfl
  rw [h1, h2] at hl
  omega

/-- C7 (amended): when both extraction layers fail, the graph path
(coder_agent) raises an error carrying the first 500 characters of the
cleaned text — in both the no-object and the failed-salvage branch —
while the streaming path (run_coder_agent) raises the fixed message or
the bare decoder message with no preview, and the stream's terminal
error event carries that preview-free message. -/
theorem c7_amended_error_previews :
    (∀ (d t : String), jsonLoads (stripFences t) = none →
      braceSpan (stripFences t) = none →
      coderAgentResult d t =
        Except.error (("No JSON object found in coder response: ") ++
          pyTake 500 (stripFences t)) ∧
      containsStr (("No JSON object found in coder response: ") ++
          pyTake 500 (stripFences t)) (pyTake 500 (stripFences t)) ∧
      runCoderAgentFiles d t = Except.error ("No JSON object found in coder response")) ∧
    (∀ (d t sub : String), jsonLoads (stripFences t) = none →
      braceSpan (stripFences t) = some sub → jsonLoads sub = none →
      coderAgentResult d t =
        Except.error (("Could not parse JSON: ") ++ d ++ ("\nResponse preview: ") ++
          pyTake 500 (stripFences t)) ∧
      containsStr (("Could not parse JSON: ") ++ d ++ ("\nResponse preview: ") ++
          pyTake 500 (stripFences t)) (pyTake 500 (stripFences t)) ∧
      runCoderAgentFiles d t = Except.error (("Could not parse JSON: ") ++ d)) ∧
    (∀ (o : RunOracle) (t : String), o.multimodalCall = CallResult.returns () →
      o.planCall = CallResult.returns (some ()) →
      o.archCall = CallResult.returns (some ()) →
      o.coderCall = CallResult.returns t →
      jsonLoads (stripFences t) = none → braceSpan (stripFences t) = none →
      generateStreamStages o =
        [Stage.planning, Stage.plan_complete, Stage.architecting, Stage.architect_complete,
         Stage.coding, Stage.error ("No JSON object found in coder response")]) := by
  refine ⟨?_, ?_, ?_⟩
  · intro d t h1 h2
    have hce : coderExtractCore t = ExtractResult.noJsonObject (stripFences t) := by
      unfold coderExtractCore
      rw [h1, h2]
    refine ⟨?_, ⟨("No JSON object found in coder response: "), ("" ), ?_⟩, ?_⟩
    · unfold coderAgentResult
      rw [hce]
    · rw [String.append_empty]
    · unfold runCoderAgentFiles
      rw [hce]
  · intro d t sub h1 h2 h3
    have hce : coderExtractCore t = ExtractResult.salvageParseFailed (stripFences t) sub := by
      simp only [coderExtractCore, h1, h2, h3]
    refine ⟨?_, ⟨("Could not parse JSON: ") ++ d ++ ("\nResponse preview: "), ("" ), ?_⟩, ?_⟩
    · unfold coderAgentResult
      rw [hce]
    · rw [String.append_empty]
    · unfold runCoderAgentFiles
      rw [hce]
  · intro o t hm hp ha hc h1 h2
    have hce : runCoderAgentFiles o.decoderMsg t =
        Except.error ("No JSON object found in coder response") := by
      unfold runCoderAgentFiles coderExtractCore
      rw [h1, h2]
    simp only [generateStreamStages, hm, hp, ha, hc, hce]

/-- C7 witness: the amended claim's no-object branch at a concrete
unparseable coder response. -/
theorem c7_amended_witness :
    coderAgentResult ("boom") ("prose only") =
      Except.error (("No JSON object found in coder response: ") ++
        pyTake 500 (stripFences ("prose only"))) :=
  (c7_amended_error_previews.1 ("boom") ("prose only") rfl rfl).1

/-- C8 counterexample: reviewer output whose JSON object is embedded in
prose.  The coder-stage extractor recovers it by brace salvage, but the
review path has no salvage layer: the direct parse fails and the raw
text is used as feedback. -/
theorem c8_review_no_salvage_counterexample :
    reviewFeedbackResult ("here is my review \x7b\"review_feedback\": \"Solid work\"\x7d thanks") =
      Except.ok (Json.str ("here is my review \x7b\"review_feedback\": \"Solid work\"\x7d thanks")) ∧
    coderExtractCore ("here is my review \x7b\"review_feedback\": \"Solid work\"\x7d thanks") =
      ExtractResult.ok (Json.obj [(("review_feedback"), Json.str ("Solid work"))]) :=
  ⟨rfl, rfl⟩

/-- C8 (amended): the Review stage applies fence stripping and a direct
parse (but no brace salvage) to the reviewer output; when that parse
fails the raw reviewer text is used verbatim as the feedback and the
run still reaches the complete event. -/
theorem c8_amended_review_degrades :
    (∀ rt : String, jsonLoads (reviewStrip rt) = none →
      reviewFeedbackResult rt = Except.ok (Json.str rt)) ∧
    (∀ (o : RunOracle) (t rt : String) (fs : List (String × Json)),
      o.multimodalCall = CallResult.returns () →
      o.planCall = CallResult.returns (some ()) →
      o.archCall = CallResult.returns (some ()) →
      o.coderCall = CallResult.returns t →
      runCoderAgentFiles o.decoderMsg t = Except.ok fs →
      o.reviewCall = CallResult.returns rt →
      jsonLoads (reviewStrip rt) = none →
      Stage.complete ∈ generateStreamStages o) := by
  constructor
  · intro rt h
    unfold reviewFeedbackResult
    rw [h]
  · intro o t rt fs hm hp ha hc hfs hr hrev
    have hfb : reviewFeedbackResult rt = Except.ok (Json.str rt) := by
      unfold reviewFeedbackResult
      rw [hrev]
    simp only [generateStreamStages, hm, hp, ha, hc, hfs, hr, hfb]
    simp

/-- C8 witness: the amended claim at a concrete run whose reviewer
output is not JSON. -/
theorem c8_amended_witness :
    reviewFeedbackResult ("not json at all") = Except.ok (Json.str ("not json at all")) ∧
    Stage.complete ∈ generateStreamStages
      ⟨CallResult.returns (), CallResult.returns (some ()), CallResult.returns (some ()),
       CallResult.returns ("\x7b\"files\": \x7b\"/App.tsx\": \"x\"\x7d\x7d"), (""),
       CallResult.returns ("not json at all"), false, false, false,
       CallResult.returns none, CallResult.returns (), CallResult.returns ()⟩ :=
  ⟨c8_amended_review_degrades.1 ("not json at all") rfl,
   c8_amended_review_degrades.2
     ⟨CallResult.returns (), CallResult.returns (some ()), CallResult.returns (some ()),
      CallResult.returns ("\x7b\"files\": \x7b\"/App.tsx\": \"x\"\x7d\x7d"), (""),
      CallResult.returns ("not json at all"), false, false, false,
      CallResult.returns none, CallResult.returns (), CallResult.returns ()⟩
     ("\x7b\"files\": \x7b\"/App.tsx\": \"x\"\x7d\x7d") ("not json at all")
     [(("/App.tsx"), Json.str ("x"))] rfl rfl rfl rfl rfl rfl rfl⟩

/-- The save section of an initial run emits nothing, one saved event,
or one save_error event. -/
theorem saveStages_cases (o : RunOracle) :
    saveStages o = [] ∨ saveStages o = [Stage.saved] ∨
    ∃ m, saveStages o = [Stage.save_error m] := by
  by_cases hug : (o.hasUserId && o.dbConfigured) = true
  · by_cases hgp : o.givenProjectId = true
    · right; left
      simp [saveStages, hug, hgp, caughtLogged_nil]
    · simp only [Bool.not_eq_true] at hgp
      cases hcr : o.createCall with
      | raises m =>
        right; right
        exact ⟨m, by simp [saveStages, hug, hgp, hcr]⟩
      | returns po =>
        cases po with
        | none => left; simp [saveStages, hug, hgp, hcr]
        | some u =>
          right; left
          simp [saveStages, hug, hgp, hcr, caughtLogged_nil]
  · left
    simp [saveStages, hug]

/-- An error-free initial-generation run emits exactly the successful
stage sequence followed by its save-section events. -/
theorem successShape (o : RunOracle)
    (h : ∀ m, Stage.error m ∉ generateStreamStages o) :
    generateStreamStages o = successStages ++ saveStages o := by
  cases hm : o.multimodalCall with
  | raises m => exact absurd (by simp [generateStreamStages, hm]) (h m)
  | returns u =>
    cases hp : o.planCall with
    | raises m => exact absurd (by simp [generateStreamStages, hm, hp]) (h m)
    | returns po =>
      cases po with
      | none =>
        exact absurd (by simp [generateStreamStages, hm, hp])
          (h ("Planner failed to create a plan"))
      | some u2 =>
        cases ha : o.archCall with
        | raises m => exact absurd (by simp [generateStreamStages, hm, hp, ha]) (h m)
        | returns ao =>
          cases ao with
          | none =>
            exact absurd (by simp [generateStreamStages, hm, hp, ha])
              (h ("Architect failed to create implementation steps"))
          | some u3 =>
            cases hc : o.coderCall with
            | raises m =>
              exact absurd (by simp [generateStreamStages, hm, hp, ha, hc]) (h m)
            | returns t =>
              cases hcf : runCoderAgentFiles o.decoderMsg t with
              | error m =>
                exact absurd (by simp [generateStreamStages, hm, hp, ha, hc, hcf]) (h m)
              | ok fs =>
                cases hr : o.reviewCall with
                | raises m =>
                  exact absurd
                    (by simp [generateStreamStages, hm, hp, ha, hc, hcf, hr]) (h m)
                | returns rt =>
                  cases hfb : reviewFeedbackResult rt with
                  | error m =>
                    exact absurd
                      (by simp [generateStreamStages, hm, hp, ha, hc, hcf, hr, hfb]) (h m)
                  | ok v =>
                    simp [generateStreamStages, hm, hp, ha, hc, hcf, hr, hfb, successStages]

/-- An error-free follow-up run emits modifying, complete, then its
save-section events. -/
theorem followupShape (fo : FollowupOracle)
    (h : ∀ m, Stage.error m ∉ followupStreamStages fo) :
    followupStreamStages fo = [Stage.modifying, Stage.complete] ++ followupSaveStages fo := by
  cases hr : runCoderFollowupO fo.currentFiles fo.coderCall fo.decoderMsg with
  | precondError m => exact absurd (by simp [followupStreamStages, hr]) (h m)
  | modelRaised m => exact absurd (by simp [followupStreamStages, hr]) (h m)
  | extracted r =>
    cases r with
    | error m => exact absurd (by simp [followupStreamStages, hr]) (h m)
    | ok v => simp [followupStreamStages, hr]

/-- When the follow-up save section is entered, it always ends in a
saved event, regardless of the persistence outcomes. -/
theorem followupSaveStages_entered (fo : FollowupOracle)
    (hu : fo.hasUserId = true) (hp : fo.hasProjectId = true)
    (hd : fo.dbConfigured = true) :
    followupSaveStages fo = [Stage.saved] := by
  simp [followupSaveStages, hu, hp, hd, caughtLogged_nil]

/-- C5: for any error-free (successful) initial-generation streaming
run, the emitted stage sequence is exactly the success sequence
planning, plan_complete, architecting, architect_complete, coding,
coding_complete, reviewing, complete — optionally followed by a single
saved or save_error event: a prefix of the specified order with no
repeated stage and no later stage before an earlier one. -/
theorem c5_stream_event_order (o : RunOracle)
    (h : ∀ m, Stage.error m ∉ generateStreamStages o) :
    generateStreamStages o = successStages ∨
    generateStreamStages o = successStages ++ [Stage.saved] ∨
    ∃ m, generateStreamStages o = successStages ++ [Stage.save_error m] := by
  rcases saveStages_cases o with hs | hs | ⟨m, hs⟩
  · left
    rw [successShape o h, hs, List.append_nil]
  · right; left
    rw [successShape o h, hs]
  · right; right
    exact ⟨m, by rw [successShape o h, hs]⟩

/-- The oracle of a fully successful run with persistence disabled. -/
def c5OkOracle : RunOracle :=
  ⟨CallResult.returns (), CallResult.returns (some ()), CallResult.returns (some ()),
   CallResult.returns ("\x7b\"files\": \x7b\"/App.tsx\": \"x\"\x7d\x7d"), (""),
   CallResult.returns ("plain review"), false, false, false,
   CallResult.returns none, CallResult.returns (), CallResult.returns ()⟩

/-- C5 witness: the ordering theorem applied to a concrete error-free
run. -/
theorem c5_stream_event_order_witness :
    generateStreamStages c5OkOracle = successStages ∨
    generateStreamStages c5OkOracle = successStages ++ [Stage.saved] ∨
    ∃ m, generateStreamStages c5OkOracle = successStages ++ [Stage.save_error m] :=
  c5_stream_event_order c5OkOracle (by
    intro m hm
    rw [show generateStreamStages c5OkOracle = successStages from rfl] at hm
    simp [successStages] at hm)

/-- Oracle of a successful initial run whose project creation raises. -/
def c9CreateFailOracle : RunOracle :=
  ⟨CallResult.returns (), CallResult.returns (some ()), CallResult.returns (some ()),
   CallResult.returns ("\x7b\"files\": \x7b\"/App.tsx\": \"x\"\x7d\x7d"), (""),
   CallResult.returns ("plain review"), true, true, false,
   CallResult.raises ("boom"), CallResult.returns (), CallResult.returns ()⟩

/-- Oracle of a successful initial run with a given project id whose
snapshot update raises. -/
def c9UpdateFailOracle : RunOracle :=
  ⟨CallResult.returns (), CallResult.returns (some ()), CallResult.returns (some ()),
   CallResult.returns ("\x7b\"files\": \x7b\"/App.tsx\": \"x\"\x7d\x7d"), (""),
   CallResult.returns ("plain review"), true, true, true,
   CallResult.returns (some ()), CallResult.raises ("db down"), CallResult.returns ()⟩

/-- Oracle of a successful initial run whose project is freshly created
(no given id, creation succeeds) and whose version save raises. -/
def c9CreatedVersionFailOracle : RunOracle :=
  ⟨CallResult.returns (), CallResult.returns (some ()), CallResult.returns (some ()),
   CallResult.returns ("\x7b\"files\": \x7b\"/App.tsx\": \"x\"\x7d\x7d"), (""),
   CallResult.returns ("plain review"), true, true, false,
   CallResult.returns (some ()), CallResult.returns (), CallResult.raises ("version boom")⟩

/-- Oracle of a successful follow-up run whose snapshot update raises. -/
def c9FollowupFailOracle : FollowupOracle :=
  ⟨[(("/App.tsx"), ("old"))],
   CallResult.returns ("\x7b\"files\": \x7b\"/App.tsx\": \"new\"\x7d\x7d"), (""),
   true, true, true, CallResult.raises ("db down"), CallResult.returns ()⟩

/-- Oracle of a successful follow-up run whose version save raises. -/
def c9FollowupVersionFailOracle : FollowupOracle :=
  ⟨[(("/App.tsx"), ("old"))],
   CallResult.returns ("\x7b\"files\": \x7b\"/App.tsx\": \"new\"\x7d\x7d"), (""),
   true, true, true, CallResult.returns (), CallResult.raises ("version boom")⟩

/-- C9 counterexample: persistence write failures that are never
reported as a save_error event.  A follow-up run whose snapshot update
raises still emits saved and never save_error, and an initial run with
a given project id whose snapshot update raises likewise emits saved
and never save_error: both failures are logged but not reported to the
caller. -/
theorem c9_swallowed_persistence_counterexample :
    c9FollowupFailOracle.updateCall = CallResult.raises ("db down") ∧
    followupStreamStages c9FollowupFailOracle =
      [Stage.modifying, Stage.complete, Stage.saved] ∧
    (∀ m, Stage.save_error m ∉ followupStreamStages c9FollowupFailOracle) ∧
    c9UpdateFailOracle.updateCall = CallResult.raises ("db down") ∧
    generateStreamStages c9UpdateFailOracle = successStages ++ [Stage.saved] ∧
    (∀ m, Stage.save_error m ∉ generateStreamStages c9UpdateFailOracle) := by
  refine ⟨rfl, rfl, ?_, rfl, rfl, ?_⟩
  · intro m hm
    rw [show followupStreamStages c9FollowupFailOracle =
      [Stage.modifying, Stage.complete, Stage.saved] from rfl] at hm
    simp at hm
  · intro m hm
    rw [show generateStreamStages c9UpdateFailOracle =
      successStages ++ [Stage.saved] from rfl] at hm
    simp [successStages] at hm

/-- C9 (amended): persistence failures never turn a run into a failure —
the generation events up to complete are unchanged — but only a failure
of project creation in the initial path is reported as save_error; a
snapshot-update or version-save failure in the initial path (whether the
project id was given or freshly created), and every persistence failure
(snapshot update or version save) in the follow-up path, are caught and
logged without an event and the stream still emits saved. -/
theorem c9_amended_persistence :
    (∀ (o : RunOracle) (m : String), (∀ e, Stage.error e ∉ generateStreamStages o) →
      o.hasUserId = true → o.dbConfigured = true → o.givenProjectId = false →
      o.createCall = CallResult.raises m →
      generateStreamStages o = successStages ++ [Stage.save_error m]) ∧
    (∀ (o : RunOracle) (m : String), (∀ e, Stage.error e ∉ generateStreamStages o) →
      o.hasUserId = true → o.dbConfigured = true →
      (o.givenProjectId = true ∨ o.createCall = CallResult.returns (some ())) →
      (o.updateCall = CallResult.raises m ∨ o.versionCall = CallResult.raises m) →
      generateStreamStages o = successStages ++ [Stage.saved]) ∧
    (∀ (fo : FollowupOracle) (m : String),
      (∀ e, Stage.error e ∉ followupStreamStages fo) →
      fo.hasUserId = true → fo.hasProjectId = true → fo.dbConfigured = true →
      (fo.updateCall = CallResult.raises m ∨ fo.versionCall = CallResult.raises m) →
      followupStreamStages fo = [Stage.modifying, Stage.complete, Stage.saved]) := by
  refine ⟨?_, ?_, ?_⟩
  · intro o m herr hu hd hg hc
    rw [successShape o herr]
    congr 1
    simp [saveStages, hu, hd, hg, hc]
  · intro o m herr hu hd hpid hfail
    rw [successShape o herr]
    congr 1
    cases hgp : o.givenProjectId with
    | true => simp [saveStages, hu, hd, hgp, caughtLogged_nil]
    | false =>
      rcases hpid with hpid | hpid
      · rw [hgp] at hpid
        exact Bool.noConfusion hpid
      · simp [saveStages, hu, hd, hgp, hpid, caughtLogged_nil]
  · intro fo m herr hu hp hd hfail
    rw [followupShape fo herr, followupSaveStages_entered fo hu hp hd]
    rfl

/-- C9 witness: the amended claim applied to five concrete runs —
creation failure, update failure with a given id, version-save failure
with a freshly created id, and follow-up update and version-save
failures. -/
theorem c9_amended_persistence_witness :
    generateStreamStages c9CreateFailOracle = successStages ++ [Stage.save_error ("boom")] ∧
    generateStreamStages c9UpdateFailOracle = successStages ++ [Stage.saved] ∧
    generateStreamStages c9CreatedVersionFailOracle = successStages ++ [Stage.saved] ∧
    followupStreamStages c9FollowupFailOracle =
      [Stage.modifying, Stage.complete, Stage.saved] ∧
    followupStreamStages c9FollowupVersionFailOracle =
      [Stage.modifying, Stage.complete, Stage.saved] :=
  ⟨c9_amended_persistence.1 c9CreateFailOracle ("boom")
    (by
      intro e he
      rw [show generateStreamStages c9CreateFailOracle =
        successStages ++ [Stage.save_error ("boom")] from rfl] at he
      simp [successStages] at he)
    rfl rfl rfl rfl,
   c9_amended_persistence.2.1 c9UpdateFailOracle ("db down")
    (by
      intro e he
      rw [show generateStreamStages c9UpdateFailOracle =
        successStages ++ [Stage.saved] from rfl] at he
      simp [successStages] at he)
    rfl rfl (Or.inl rfl) (Or.inl rfl),
   c9_amended_persistence.2.1 c9CreatedVersionFailOracle ("version boom")
    (by
      intro e he
      rw [show generateStreamStages c9CreatedVersionFailOracle =
        successStages ++ [Stage.saved] from rfl] at he
      simp [successStages] at he)
    rfl rfl (Or.inr rfl) (Or.inr rfl),
   c9_amended_persistence.2.2 c9FollowupFailOracle ("db down")
    (by
      intro e he
      rw [show followupStreamStages c9FollowupFailOracle =
        [Stage.modifying, Stage.complete, Stage.saved] from rfl] at he
      simp at he)
    rfl rfl rfl (Or.inl rfl),
   c9_amended_persistence.2.2 c9FollowupVersionFailOracle ("version boom")
    (by
      intro e he
      rw [show followupStreamStages c9FollowupVersionFailOracle =
        [Stage.modifying, Stage.complete, Stage.saved] from rfl] at he
      simp at he)
    rfl rfl rfl (Or.inr rfl)⟩
